import Mathlib

/-!
Verification of `mobile/create_assets.py`, a script that ensures an `assets`
directory exists, base64-decodes an embedded constant, and writes the decoded
bytes to four fixed files, printing a progress line per file and a final
success line.

The script is embedded shallowly: the filesystem is an explicit state
(directories plus an association list of files), console output and file
writes are recorded in an event trace, and the possibility of a failing
file write is captured by a `writeOk` oracle indexed by write number.
-/

namespace CreateAssets

/-- The embedded base64 constant `green_pixel` from the source. -/
def green_pixel : String :=
  "iVBORw0KGgoAAAANSUhEUgAAAAEAAAABCAYAAAAfFcSJAAAADUlEQVR42mNk+M9QDwADhgGAWjR9awAAAABJRU5ErkJggg=="

/-- The fixed asset name list from the source. -/
def assets : List String := ["icon.png", "splash.png", "adaptive-icon.png", "favicon.png"]

/-- Value of a single base64 alphabet character (A-Z a-z 0-9 + /), as in the
standard alphabet used by `base64.b64decode`. -/
def b64val (c : Char) : Option Nat :=
  let n := c.toNat
  if 65 ≤ n ∧ n ≤ 90 then some (n - 65)
  else if 97 ≤ n ∧ n ≤ 122 then some (n - 97 + 26)
  else if 48 ≤ n ∧ n ≤ 57 then some (n - 48 + 52)
  else if n = 43 then some 62
  else if n = 47 then some 63
  else none

/-- Base64 decoding of a character list, four characters at a time, with
`=` padding allowed only at the very end (as in `base64.b64decode` on a
well-formed input). Returns `none` on malformed input. -/
def b64decodeAux : List Char → Option (List Nat)
  | [] => some []
  | c1 :: c2 :: c3 :: c4 :: rest => do
    let v1 ← b64val c1
    let v2 ← b64val c2
    if c3 = '=' then
      if c4 = '=' ∧ rest = [] then
        some [v1 * 4 + v2 / 16]
      else none
    else do
      let v3 ← b64val c3
      if c4 = '=' then
        if rest = [] then
          some [v1 * 4 + v2 / 16, (v2 % 16) * 16 + v3 / 4]
        else none
      else do
        let v4 ← b64val c4
        let tail ← b64decodeAux rest
        some ((v1 * 4 + v2 / 16) :: ((v2 % 16) * 16 + v3 / 4) :: ((v3 % 4) * 64 + v4) :: tail)
  | _ => none

/-- Model of `base64.b64decode` applied to a text constant. -/
def b64decode (s : String) : Option (List Nat) := b64decodeAux s.data

/-- The decoded payload `pixel_data = base64.b64decode(green_pixel)`,
spelled out byte by byte. -/
def pixel_data : List Nat :=
  [137, 80, 78, 71, 13, 10, 26, 10, 0, 0, 0, 13, 73, 72, 68, 82,
   0, 0, 0, 1, 0, 0, 0, 1, 8, 6, 0, 0, 0, 31, 21, 196,
   137, 0, 0, 0, 13, 73, 68, 65, 84, 120, 218, 99, 100, 248, 207, 80,
   15, 0, 3, 134, 1, 128, 90, 52, 125, 107, 0, 0, 0, 0, 73, 69,
   78, 68, 174, 66, 96, 130]

/-- Filesystem state: a set of existing directories and the files present,
each file a full path paired with its byte content.  A later entry for the
same path is shadowed by an earlier one (`read` takes the first match). -/
structure FS where
  dirs : List String
  files : List (String × List Nat)
deriving DecidableEq

/-- Read the byte content of the file at path `p`, if present. -/
def FS.read (fs : FS) (p : String) : Option (List Nat) :=
  (fs.files.find? (fun e => e.1 == p)).map (fun e => e.2)

/-- Whether a file (not a directory) occupies path `p`. -/
def FS.hasFile (fs : FS) (p : String) : Bool :=
  fs.files.any (fun e => e.1 == p)

/-- Open for binary writing, truncate, write `v`: the file at `p` now has
content `v`, every other path is untouched. -/
def FS.write (fs : FS) (p : String) (v : List Nat) : FS :=
  { fs with files := (p, v) :: fs.files }

/-- Split a character list at `/` separators. -/
def splitSlash : List Char → List (List Char)
  | [] => [[]]
  | c :: rest =>
    if c = '/' then [] :: splitSlash rest
    else
      match splitSlash rest with
      | [] => [[c]]
      | g :: gs => (c :: g) :: gs

/-- Join path components with `/`. -/
def joinPath : List String → String
  | [] => ""
  | [s] => s
  | s :: rest => s ++ "/" ++ joinPath rest

/-- The chain of ancestor directories of a path, shortest first:
`"a/b"` yields `["a", "a/b"]`, `"assets"` yields `["assets"]`. -/
def dirChain (p : String) : List String :=
  let comps := (splitSlash p.data).map (fun cs => String.mk cs)
  (List.range comps.length).map (fun i => joinPath (comps.take (i + 1)))

/-- One step of `os.makedirs(..., exist_ok=True)`: walk the ancestor chain,
skipping directories that already exist, failing when a file occupies a
path on the chain, and creating each missing directory. -/
def makedirsList (fs : FS) : List String → Except Unit FS
  | [] => .ok fs
  | d :: rest =>
    if d ∈ fs.dirs then makedirsList fs rest
    else if fs.hasFile d then .error ()
    else makedirsList { fs with dirs := d :: fs.dirs } rest

/-- Model of `os.makedirs(p, exist_ok=True)`. -/
def makedirs (fs : FS) (p : String) : Except Unit FS :=
  makedirsList fs (dirChain p)

/-- An observable event of a run: a completed file write, or a line printed
to standard output. -/
inductive Event where
  | wrote (path : String) (content : List Nat)
  | printed (line : String)
deriving DecidableEq

/-- The result of a run: final filesystem, the ordered event trace, and
whether the run aborted with an error. -/
structure Outcome where
  fs : FS
  trace : List Event
  errored : Bool
deriving DecidableEq

/-- The console output of a trace: its printed lines, in order. -/
def consoleOut (tr : List Event) : List String :=
  tr.filterMap (fun e => match e with | .printed s => some s | .wrote _ _ => none)

/-- The `for asset in assets:` loop.  The `i`-th write succeeds exactly when
`writeOk i`; a successful write is followed by its `Created <asset>` line
before the next write begins, a failing write aborts the run, and after the
last asset the final success line is printed. -/
def writeLoop (writeOk : Nat → Bool) (pd : List Nat) :
    FS → List Event → Nat → List String → Outcome
  | fs, tr, _, [] =>
    { fs := fs,
      trace := tr ++ [.printed "All placeholder assets created successfully!"],
      errored := false }
  | fs, tr, i, a :: rest =>
    if writeOk i then
      writeLoop writeOk pd (fs.write ("assets/" ++ a) pd)
        (tr ++ [.wrote ("assets/" ++ a) pd, .printed ("Created " ++ a)])
        (i + 1) rest
    else
      { fs := fs, trace := tr, errored := true }

/-- The whole script: `os.makedirs('assets', exist_ok=True)`, then
`pixel_data = base64.b64decode(green_pixel)`, then the write loop. -/
def runScript (writeOk : Nat → Bool) (fs0 : FS) : Outcome :=
  match makedirs fs0 "assets" with
  | .error _ => { fs := fs0, trace := [], errored := true }
  | .ok fs1 =>
    match b64decode green_pixel with
    | none => { fs := fs1, trace := [], errored := true }
    | some pd => writeLoop writeOk pd fs1 [] 0 assets

/-- The event trace of a fully successful run: each asset's write followed at
once by its `Created` line, in declared order, then the final success line. -/
def successTrace : List Event :=
  [.wrote "assets/icon.png" pixel_data, .printed "Created icon.png",
   .wrote "assets/splash.png" pixel_data, .printed "Created splash.png",
   .wrote "assets/adaptive-icon.png" pixel_data, .printed "Created adaptive-icon.png",
   .wrote "assets/favicon.png" pixel_data, .printed "Created favicon.png",
   .printed "All placeholder assets created successfully!"]

/-- The filesystem after the four writes of a successful run, starting from
the state left by directory creation. -/
def finalFS (fs1 : FS) : FS :=
  ((((fs1.write "assets/icon.png" pixel_data).write "assets/splash.png" pixel_data).write
      "assets/adaptive-icon.png" pixel_data).write "assets/favicon.png" pixel_data)

/-- Number of write events in a trace that target path `p`. -/
def countWrote (tr : List Event) (p : String) : Nat :=
  (tr.filter (fun e => match e with | .wrote q _ => q == p | .printed _ => false)).length

theorem b64decode_green_pixel : b64decode green_pixel = some pixel_data := by decide

theorem dirChain_assets : dirChain "assets" = ["assets"] := by decide

theorem FS.read_write (fs : FS) (p q : String) (v : List Nat) :
    (fs.write p v).read q = if p = q then some v else fs.read q := by
  by_cases h : p = q <;> simp [FS.write, FS.read, List.find?_cons, h]

theorem FS.dirs_write (fs : FS) (p : String) (v : List Nat) :
    (fs.write p v).dirs = fs.dirs := rfl

/-- `os.makedirs('assets', exist_ok=True)` characterised: silent no-op when
the directory exists, error when a file occupies the path, creation
otherwise. -/
theorem makedirs_assets (fs : FS) :
    makedirs fs "assets" =
      if "assets" ∈ fs.dirs then .ok fs
      else if fs.hasFile "assets" then .error ()
      else .ok { fs with dirs := "assets" :: fs.dirs } := by
  rw [makedirs, dirChain_assets]
  by_cases h1 : "assets" ∈ fs.dirs <;> by_cases h2 : fs.hasFile "assets" <;>
    simp [makedirsList, h1, h2]

/-- Directory creation never touches file contents. -/
theorem makedirsList_files (ds : List String) (fs fs' : FS)
    (h : makedirsList fs ds = .ok fs') : fs'.files = fs.files := by
  induction ds generalizing fs with
  | nil => simp [makedirsList] at h; rw [← h]
  | cons d rest ih =>
    rw [makedirsList] at h
    split at h
    · exact ih fs h
    · split at h
      · cases h
      · exact ih { fs with dirs := d :: fs.dirs } h

/-- On success, every directory on the chain (the target and all its
ancestors) exists afterwards, and no existing directory is removed. -/
theorem makedirsList_dirs (ds : List String) (fs fs' : FS)
    (h : makedirsList fs ds = .ok fs') :
    (∀ d ∈ ds, d ∈ fs'.dirs) ∧ (∀ d ∈ fs.dirs, d ∈ fs'.dirs) := by
  induction ds generalizing fs with
  | nil =>
    simp [makedirsList] at h
    subst h
    exact ⟨by simp, fun d hd => hd⟩
  | cons d rest ih =>
    rw [makedirsList] at h
    split at h
    · rename_i hmem
      obtain ⟨h1, h2⟩ := ih fs h
      exact ⟨by simpa using ⟨h2 d hmem, h1⟩, h2⟩
    · split at h
      · cases h
      · obtain ⟨h1, h2⟩ := ih _ h
        refine ⟨by simpa using ⟨h2 d (by simp), h1⟩, fun e he => h2 e (by simp [he])⟩

theorem run_err_of_mk_err (w : Nat → Bool) (fs0 : FS)
    (hmk : makedirs fs0 "assets" = .error ()) :
    runScript w fs0 = { fs := fs0, trace := [], errored := true } := by
  rw [runScript, hmk]

/-- A run in which directory creation and all four writes succeed produces
exactly the successful trace and the four-write filesystem. -/
theorem run_ok (w : Nat → Bool) (fs0 fs1 : FS)
    (hmk : makedirs fs0 "assets" = .ok fs1)
    (h0 : w 0 = true) (h1 : w 1 = true) (h2 : w 2 = true) (h3 : w 3 = true) :
    runScript w fs0 = { fs := finalFS fs1, trace := successTrace, errored := false } := by
  rw [runScript, hmk, b64decode_green_pixel]
  simp [assets, writeLoop, h0, h1, h2, h3, finalFS, successTrace]

/-- A run that did not error had successful directory creation and all four
writes succeeded. -/
theorem run_success_inv (w : Nat → Bool) (fs0 : FS)
    (h : (runScript w fs0).errored = false) :
    ∃ fs1, makedirs fs0 "assets" = .ok fs1 ∧
      w 0 = true ∧ w 1 = true ∧ w 2 = true ∧ w 3 = true := by
  rcases hmk : makedirs fs0 "assets" with u | fs1
  · rw [run_err_of_mk_err w fs0 (by rw [hmk])] at h
    cases h
  · refine ⟨fs1, rfl, ?_⟩
    rw [runScript, hmk, b64decode_green_pixel] at h
    cases h0 : w 0 <;> cases h1 : w 1 <;> cases h2 : w 2 <;> cases h3 : w 3 <;>
      simp [assets, writeLoop, h0, h1, h2, h3] at h ⊢

/-- After a successful run each of the four asset paths holds the payload. -/
theorem reads_of_success (w : Nat → Bool) (fs0 : FS)
    (h : (runScript w fs0).errored = false) :
    ∀ a ∈ assets, (runScript w fs0).fs.read ("assets/" ++ a) = some pixel_data := by
  obtain ⟨fs1, hmk, h0, h1, h2, h3⟩ := run_success_inv w fs0 h
  rw [run_ok w fs0 fs1 hmk h0 h1 h2 h3]
  intro a ha
  fin_cases ha <;> simp [finalFS, FS.read_write]

/-- C1: after a successful run, for every name in the fixed list the file at
`assets/<name>` exists and its byte content exactly equals the result of
base64-decoding the embedded constant string. -/
theorem C1_files_equal_decoded_payload (w : Nat → Bool) (fs0 : FS)
    (h : (runScript w fs0).errored = false) :
    b64decode green_pixel = some pixel_data ∧
    ∀ a ∈ assets, (runScript w fs0).fs.read ("assets/" ++ a) = some pixel_data :=
  ⟨b64decode_green_pixel, reads_of_success w fs0 h⟩

theorem C1_witness :
    (runScript (fun _ => true) ⟨[], []⟩).errored = false ∧
    (runScript (fun _ => true) ⟨[], []⟩).fs.read "assets/icon.png" = some pixel_data := by
  refine ⟨by decide, ?_⟩
  exact (C1_files_equal_decoded_payload (fun _ => true) ⟨[], []⟩ (by decide)).2
    "icon.png" (by decide)

/-- C2 counterexample: base64-decoding the embedded constant does NOT yield
67 bytes. -/
theorem C2_counterexample :
    ¬ ∃ l, b64decode green_pixel = some l ∧ l.length = 67 := by decide

/-- C2 (amended): base64-decoding the embedded constant string yields a byte
sequence of length exactly 70. -/
theorem C2_decoded_length_70 :
    b64decode green_pixel = some pixel_data ∧ pixel_data.length = 70 := by decide

/-- C3: on a run in which every write succeeds, each asset's write event is
followed immediately by its `Created <name>` line before the next write, in
declared order, and the console output is exactly the four `Created` lines
followed by the final success line. -/
theorem C3_console_output (w : Nat → Bool) (fs0 : FS)
    (h : (runScript w fs0).errored = false) :
    (runScript w fs0).trace = successTrace ∧
    consoleOut (runScript w fs0).trace =
      ["Created icon.png", "Created splash.png", "Created adaptive-icon.png",
       "Created favicon.png", "All placeholder assets created successfully!"] := by
  obtain ⟨fs1, hmk, h0, h1, h2, h3⟩ := run_success_inv w fs0 h
  rw [run_ok w fs0 fs1 hmk h0 h1 h2 h3]
  refine ⟨rfl, ?_⟩
  show consoleOut successTrace = _
  decide

theorem C3_witness :
    (runScript (fun _ => true) ⟨[], []⟩).errored = false ∧
    (runScript (fun _ => true) ⟨[], []⟩).trace = successTrace := by
  refine ⟨by decide, ?_⟩
  exact (C3_console_output (fun _ => true) ⟨[], []⟩ (by decide)).1

/-- C4: if a file occupies the path `assets` so that directory creation
fails, the run terminates in error before any write or print: the trace is
empty and the filesystem is unchanged, so none of the four asset files is
created. -/
theorem C4_dir_failure_aborts (w : Nat → Bool) (fs0 : FS)
    (hdir : "assets" ∉ fs0.dirs) (hfile : fs0.hasFile "assets" = true) :
    runScript w fs0 = { fs := fs0, trace := [], errored := true } ∧
    ∀ a ∈ assets, (runScript w fs0).fs.read ("assets/" ++ a) = fs0.read ("assets/" ++ a) := by
  have hmk : makedirs fs0 "assets" = .error () := by
    rw [makedirs_assets]
    simp [hdir, hfile]
  have := run_err_of_mk_err w fs0 hmk
  exact ⟨this, fun a _ => by rw [this]⟩

theorem C4_witness :
    runScript (fun _ => true) ⟨[], [("assets", [0])]⟩ =
      { fs := ⟨[], [("assets", [0])]⟩, trace := [], errored := true } :=
  (C4_dir_failure_aborts (fun _ => true) ⟨[], [("assets", [0])]⟩ (by decide) (by decide)).1

/-- C6: starting a second run from the filesystem state a successful first
run produced, a successful second run leaves every one of the four files
with byte content identical to what the first run wrote. -/
theorem C6_idempotent (w w2 : Nat → Bool) (fs0 : FS)
    (h1 : (runScript w fs0).errored = false)
    (h2 : (runScript w2 (runScript w fs0).fs).errored = false) :
    ∀ a ∈ assets,
      (runScript w2 (runScript w fs0).fs).fs.read ("assets/" ++ a) =
        (runScript w fs0).fs.read ("assets/" ++ a) := by
  intro a ha
  rw [reads_of_success w2 (runScript w fs0).fs h2 a ha, reads_of_success w fs0 h1 a ha]

theorem C6_witness :
    (runScript (fun _ => true) ⟨[], []⟩).errored = false ∧
    (runScript (fun _ => true) (runScript (fun _ => true) ⟨[], []⟩).fs).errored = false ∧
    (runScript (fun _ => true) (runScript (fun _ => true) ⟨[], []⟩).fs).fs.read
        "assets/favicon.png" =
      (runScript (fun _ => true) ⟨[], []⟩).fs.read "assets/favicon.png" := by
  refine ⟨by decide, by decide, ?_⟩
  exact C6_idempotent (fun _ => true) (fun _ => true) ⟨[], []⟩ (by decide) (by decide)
    "favicon.png" (by decide)

/-- C7: when the `assets` directory already exists, a successful run leaves
every path other than the four asset paths with unchanged content: only the
four named assets are created or overwritten. -/
theorem C7_frame (w : Nat → Bool) (fs0 : FS) (q : String)
    (hdir : "assets" ∈ fs0.dirs)
    (hq : ∀ a ∈ assets, q ≠ "assets/" ++ a)
    (h : (runScript w fs0).errored = false) :
    (runScript w fs0).fs.read q = fs0.read q := by
  obtain ⟨fs1, hmk, h0, h1, h2, h3⟩ := run_success_inv w fs0 h
  have hfiles : fs1.files = fs0.files := by
    rw [makedirs_assets] at hmk
    simp [hdir] at hmk
    rw [← hmk]
  have hread : fs1.read q = fs0.read q := by rw [FS.read, FS.read, hfiles]
  rw [run_ok w fs0 fs1 hmk h0 h1 h2 h3]
  have n0 := hq "icon.png" (by decide)
  have n1 := hq "splash.png" (by decide)
  have n2 := hq "adaptive-icon.png" (by decide)
  have n3 := hq "favicon.png" (by decide)
  simp only [finalFS, FS.read_write]
  rw [if_neg (fun e => n3 e.symm), if_neg (fun e => n2 e.symm),
    if_neg (fun e => n1 e.symm), if_neg (fun e => n0 e.symm), hread]

theorem C7_witness :
    (runScript (fun _ => true) ⟨["assets"], [("assets/other.txt", [1, 2])]⟩).errored = false ∧
    (runScript (fun _ => true) ⟨["assets"], [("assets/other.txt", [1, 2])]⟩).fs.read
        "assets/other.txt" = some [1, 2] := by
  refine ⟨by decide, ?_⟩
  rw [C7_frame (fun _ => true) ⟨["assets"], [("assets/other.txt", [1, 2])]⟩ "assets/other.txt"
    (by decide) (by decide) (by decide)]
  decide

/-- C8: the content written is independent of everything outside the program
text: any two successful runs, from arbitrary initial filesystem states and
arbitrary write oracles, leave every asset file with the same bytes, namely
the decoded constant. -/
theorem C8_deterministic (w w' : Nat → Bool) (fs0 fs0' : FS)
    (h : (runScript w fs0).errored = false)
    (h' : (runScript w' fs0').errored = false) :
    ∀ a ∈ assets,
      (runScript w fs0).fs.read ("assets/" ++ a) = some pixel_data ∧
      (runScript w' fs0').fs.read ("assets/" ++ a) =
        (runScript w fs0).fs.read ("assets/" ++ a) := by
  intro a ha
  rw [reads_of_success w fs0 h a ha, reads_of_success w' fs0' h' a ha]
  exact ⟨rfl, rfl⟩

theorem C8_witness :
    (runScript (fun _ => true) ⟨[], []⟩).errored = false ∧
    (runScript (fun i => i < 10) ⟨["assets"], [("x", [3])]⟩).errored = false ∧
    (runScript (fun i => i < 10) ⟨["assets"], [("x", [3])]⟩).fs.read "assets/splash.png" =
      (runScript (fun _ => true) ⟨[], []⟩).fs.read "assets/splash.png" := by
  refine ⟨by decide, by decide, ?_⟩
  exact (C8_deterministic (fun _ => true) (fun i => i < 10) ⟨[], []⟩
    ⟨["assets"], [("x", [3])]⟩ (by decide) (by decide) "splash.png" (by decide)).2

/-- C9: directory creation has ensure-exists semantics: an existing `assets`
directory makes the step a silent no-op; on success the target directory and
every ancestor on its chain exist; and when absent (and not occupied by a
file) the directory is created. -/
theorem C9_makedirs_semantics (fs : FS) :
    ("assets" ∈ fs.dirs → makedirs fs "assets" = .ok fs) ∧
    (∀ fs', makedirs fs "assets" = .ok fs' → ∀ d ∈ dirChain "assets", d ∈ fs'.dirs) ∧
    ("assets" ∉ fs.dirs → fs.hasFile "assets" = false →
      makedirs fs "assets" = .ok { fs with dirs := "assets" :: fs.dirs }) := by
  refine ⟨fun h => by rw [makedirs_assets]; simp [h], ?_, fun h1 h2 => by
    rw [makedirs_assets]; simp [h1, h2]⟩
  intro fs' h d hd
  exact (makedirsList_dirs (dirChain "assets") fs fs' (by rw [← makedirs]; exact h)).1 d hd

theorem C9_witness :
    makedirs ⟨["assets"], []⟩ "assets" = .ok ⟨["assets"], []⟩ ∧
    makedirs ⟨[], []⟩ "assets" = .ok ⟨["assets"], []⟩ ∧
    "assets" ∈ (FS.mk ["assets"] []).dirs := by
  refine ⟨(C9_makedirs_semantics ⟨["assets"], []⟩).1 (by decide),
    (C9_makedirs_semantics ⟨[], []⟩).2.2 (by decide) (by decide), ?_⟩
  exact (C9_makedirs_semantics ⟨[], []⟩).2.1 ⟨["assets"], []⟩
    ((C9_makedirs_semantics ⟨[], []⟩).2.2 (by decide) (by decide)) "assets" (by decide)

/-- The paths of the write events of a trace, in order. -/
def pathsWritten (tr : List Event) : List String :=
  tr.filterMap (fun e => match e with | .wrote p _ => some p | .printed _ => none)

/-- C5: if the write for the N-th asset fails, the run errors, the trace
consists of exactly the write/print pairs of assets 0..N-1 (so their
`Created` lines were already printed, no rollback happened, and no success
line is printed), the files already written keep the payload content, and no
write targets any of the remaining assets. -/
theorem C5_write_failure_partial (w : Nat → Bool) (fs0 fs1 : FS) (N : Nat) (hN : N < 4)
    (hmk : makedirs fs0 "assets" = .ok fs1)
    (hok : ∀ i, i < N → w i = true) (hfail : w N = false) :
    (runScript w fs0).errored = true ∧
    (runScript w fs0).trace =
      ((assets.take N).map (fun a =>
        [Event.wrote ("assets/" ++ a) pixel_data, Event.printed ("Created " ++ a)])).flatten ∧
    Event.printed "All placeholder assets created successfully!" ∉ (runScript w fs0).trace ∧
    (∀ a ∈ assets.take N, (runScript w fs0).fs.read ("assets/" ++ a) = some pixel_data) ∧
    (∀ a ∈ assets.drop N, ("assets/" ++ a) ∉ pathsWritten (runScript w fs0).trace) := by
  interval_cases N
  · have hrun : runScript w fs0 = { fs := fs1, trace := [], errored := true } := by
      rw [runScript, hmk, b64decode_green_pixel]
      simp [assets, writeLoop, hfail]
    rw [hrun]
    dsimp only
    refine ⟨rfl, by decide, by decide, ?_, by decide⟩
    intro a ha
    simp [assets] at ha
  · have hrun : runScript w fs0 =
        { fs := fs1.write "assets/icon.png" pixel_data,
          trace := [.wrote "assets/icon.png" pixel_data, .printed "Created icon.png"],
          errored := true } := by
      rw [runScript, hmk, b64decode_green_pixel]
      simp [assets, writeLoop, hok 0 (by omega), hfail]
    rw [hrun]
    dsimp only
    refine ⟨rfl, by decide, by decide, ?_, by decide⟩
    intro a ha
    simp [assets] at ha
    subst ha
    simp [FS.read_write]
  · have hrun : runScript w fs0 =
        { fs := (fs1.write "assets/icon.png" pixel_data).write "assets/splash.png" pixel_data,
          trace := [.wrote "assets/icon.png" pixel_data, .printed "Created icon.png",
                    .wrote "assets/splash.png" pixel_data, .printed "Created splash.png"],
          errored := true } := by
      rw [runScript, hmk, b64decode_green_pixel]
      simp [assets, writeLoop, hok 0 (by omega), hok 1 (by omega), hfail]
    rw [hrun]
    dsimp only
    refine ⟨rfl, by decide, by decide, ?_, by decide⟩
    intro a ha
    simp [assets] at ha
    rcases ha with rfl | rfl <;> simp [FS.read_write]
  · have hrun : runScript w fs0 =
        { fs := ((fs1.write "assets/icon.png" pixel_data).write "assets/splash.png"
              pixel_data).write "assets/adaptive-icon.png" pixel_data,
          trace := [.wrote "assets/icon.png" pixel_data, .printed "Created icon.png",
                    .wrote "assets/splash.png" pixel_data, .printed "Created splash.png",
                    .wrote "assets/adaptive-icon.png" pixel_data,
                    .printed "Created adaptive-icon.png"],
          errored := true } := by
      rw [runScript, hmk, b64decode_green_pixel]
      simp [assets, writeLoop, hok 0 (by omega), hok 1 (by omega), hok 2 (by omega), hfail]
    rw [hrun]
    dsimp only
    refine ⟨rfl, by decide, by decide, ?_, by decide⟩
    intro a ha
    simp [assets] at ha
    rcases ha with rfl | rfl | rfl <;> simp [FS.read_write]

theorem C5_witness :
    (runScript (fun i => decide (i < 2)) ⟨[], []⟩).errored = true ∧
    (runScript (fun i => decide (i < 2)) ⟨[], []⟩).trace =
      [.wrote "assets/icon.png" pixel_data, .printed "Created icon.png",
       .wrote "assets/splash.png" pixel_data, .printed "Created splash.png"] := by
  have h := C5_write_failure_partial (fun i => decide (i < 2)) ⟨[], []⟩ ⟨["assets"], []⟩ 2
    (by omega) (by rfl) (fun i hi => decide_eq_true hi) (by decide)
  refine ⟨h.1, ?_⟩
  rw [h.2.1]
  decide

/-- C10: the four asset names are pairwise distinct and contain no path
separator, the four target paths `assets/<name>` are pairwise distinct, and
on any run each target path is written at most once. -/
theorem C10_paths_distinct_written_once (w : Nat → Bool) (fs0 : FS) :
    assets.Nodup ∧
    (∀ a ∈ assets, '/' ∉ a.data) ∧
    (assets.map (fun a => "assets/" ++ a)).Nodup ∧
    (∀ a ∈ assets, countWrote (runScript w fs0).trace ("assets/" ++ a) ≤ 1) := by
  refine ⟨by decide, by decide, by decide, ?_⟩
  rcases hmk : makedirs fs0 "assets" with u | fs1
  · rw [run_err_of_mk_err w fs0 (by rw [hmk])]
    intro a _
    simp [countWrote]
  · rw [runScript, hmk, b64decode_green_pixel]
    cases h0 : w 0 <;> cases h1 : w 1 <;> cases h2 : w 2 <;> cases h3 : w 3 <;>
      simp only [assets, writeLoop, h0, h1, h2, h3] <;>
      simp <;> decide

theorem C10_witness :
    countWrote (runScript (fun _ => true) ⟨[], []⟩).trace ("assets/" ++ "icon.png") ≤ 1 :=
  (C10_paths_distinct_written_once (fun _ => true) ⟨[], []⟩).2.2.2 "icon.png" (by decide)

end CreateAssets
